import Mathlib

/-!
Shallow embedding of the fault-tolerance core of the DE-mental-model
repository: the checkpoint ledger (CheckpointManager of
sessions/session3/advanced/code/reliable_pipeline.py), the retry-with-backoff
wrapper, the circuit breaker and tiered logger of the failure-handling
scripts, and the idempotent monthly sweep of
sessions/session3/code/idempotent_pipeline.py.

SQL NULL is Option.none, timestamps are abstract Nat clocks supplied by the
caller, and the ops tables are lists of rows; the unique-key upsert
(INSERT ... ON CONFLICT) updates the first matching row or appends.
-/

namespace Spec2Proof

/-- JSON-object metadata, modelled as an association list with
natural-number values (the code only stores and reads numeric fields such
as duration_ms and rows_updated). -/
abbrev Meta := List (String × Nat)

/-- One row of the ops.pipeline_checkpoint table. -/
structure CheckpointRow where
  pipeline_name : String
  run_id : String
  stage : String
  checkpoint_key : String
  checkpoint_value : Option String
  status : String
  start_time : Option Nat
  end_time : Option Nat
  duration_ms : Option Nat
  metadata : Option Meta
  updated_at : Option Nat
  deriving Repr, DecidableEq

/-- The unique tuple (pipeline_name, run_id, stage, checkpoint_key) of
ops.pipeline_checkpoint. -/
def keyMatches (p r stage key : String) (row : CheckpointRow) : Bool :=
  row.pipeline_name == p && row.run_id == r && row.stage == stage &&
    row.checkpoint_key == key

/-- Python expression json.dumps(metadata) if metadata else None: both None
and the empty dict are falsy, so both store NULL. -/
def metaJson : Option Meta → Option Meta
  | none => none
  | some [] => none
  | some (kv :: rest) => some (kv :: rest)

/-- Python expression metadata.get(\x22duration_ms\x22, 0) if metadata else 0. -/
def metaDuration : Option Meta → Nat
  | none => 0
  | some l => (l.lookup "duration_ms").getD 0

/-- The DO UPDATE arm of set_checkpoint: overwrite checkpoint_value, status,
end_time, duration_ms, metadata and updated_at, keep start_time. -/
def updatedRow (value status : String) (metadata : Option Meta) (t : Nat)
    (row : CheckpointRow) : CheckpointRow :=
  { row with
    checkpoint_value := some value
    status := status
    end_time := some t
    duration_ms := some (metaDuration metadata)
    metadata := metaJson metadata
    updated_at := some t }

/-- The freshly inserted row of set_checkpoint: start_time, end_time and
updated_at are all the single CURRENT_TIMESTAMP of the call. -/
def insertedRow (p r stage key value status : String) (metadata : Option Meta)
    (t : Nat) : CheckpointRow :=
  { pipeline_name := p, run_id := r, stage := stage, checkpoint_key := key
    checkpoint_value := some value, status := status
    start_time := some t, end_time := some t
    duration_ms := some (metaDuration metadata)
    metadata := metaJson metadata, updated_at := some t }

/-- CheckpointManager.set_checkpoint: INSERT ... ON CONFLICT (unique tuple)
DO UPDATE.  The unique index guarantees at most one conflicting row, so the
upsert rewrites the first match or appends a new row. -/
def set_checkpoint (p r stage key value status : String) (metadata : Option Meta)
    (t : Nat) : List CheckpointRow → List CheckpointRow
  | [] => [insertedRow p r stage key value status metadata t]
  | row :: rest =>
    if keyMatches p r stage key row then
      updatedRow value status metadata t row :: rest
    else
      row :: set_checkpoint p r stage key value status metadata t rest

/-- The row inserted by start_stage: only the key columns, the literal
status in_progress and a start_time; every other column stays NULL. -/
def startRow (p r stage key : String) (t : Nat) : CheckpointRow :=
  { pipeline_name := p, run_id := r, stage := stage, checkpoint_key := key
    checkpoint_value := none, status := "in_progress"
    start_time := some t, end_time := none, duration_ms := none
    metadata := none, updated_at := none }

/-- CheckpointManager.start_stage: INSERT ... ON CONFLICT DO NOTHING. -/
def start_stage (p r stage key : String) (t : Nat)
    (table : List CheckpointRow) : List CheckpointRow :=
  if table.any (keyMatches p r stage key) then table
  else table ++ [startRow p r stage key t]

/-- CheckpointManager.get_checkpoint: SELECT checkpoint_value for the unique
tuple; a missing row and a NULL value both read back as None. -/
def get_checkpoint (p r stage key : String) (table : List CheckpointRow) :
    Option String :=
  match table.find? (keyMatches p r stage key) with
  | some row => row.checkpoint_value
  | none => none

/-- Number of rows of the table that carry the given unique tuple. -/
def countMatching (p r stage key : String) (table : List CheckpointRow) : Nat :=
  (table.filter (keyMatches p r stage key)).length

/-- First row of the table that carries the given unique tuple. -/
def findMatching (p r stage key : String) (table : List CheckpointRow) :
    Option CheckpointRow :=
  table.find? (keyMatches p r stage key)

lemma countMatching_eq_zero {p r stage key : String} {table : List CheckpointRow}
    (h : countMatching p r stage key table = 0) :
    ∀ row ∈ table, keyMatches p r stage key row = false := by
  intro row hrow
  have hnil : table.filter (keyMatches p r stage key) = [] :=
    List.length_eq_zero.mp h
  have := List.filter_eq_nil_iff.mp hnil row hrow
  simpa using this

lemma set_checkpoint_of_absent (p r stage key value status : String)
    (metadata : Option Meta) (t : Nat) (table : List CheckpointRow)
    (h : ∀ row ∈ table, keyMatches p r stage key row = false) :
    set_checkpoint p r stage key value status metadata t table =
      table ++ [insertedRow p r stage key value status metadata t] := by
  induction table with
  | nil => rfl
  | cons row rest ih =>
    have hrow : keyMatches p r stage key row = false := h row (by simp)
    have hrest : ∀ x ∈ rest, keyMatches p r stage key x = false := by
      intro x hx; exact h x (by simp [hx])
    simp [set_checkpoint, hrow, ih hrest]

lemma keyMatches_insertedRow (p r stage key value status : String)
    (metadata : Option Meta) (t : Nat) :
    keyMatches p r stage key (insertedRow p r stage key value status metadata t)
      = true := by
  simp [keyMatches, insertedRow]

lemma keyMatches_startRow (p r stage key : String) (t : Nat) :
    keyMatches p r stage key (startRow p r stage key t) = true := by
  simp [keyMatches, startRow]

lemma set_checkpoint_append_match (p r stage key value status : String)
    (metadata : Option Meta) (t : Nat) (xs : List CheckpointRow)
    (m : CheckpointRow) (hxs : ∀ row ∈ xs, keyMatches p r stage key row = false)
    (hm : keyMatches p r stage key m = true) :
    set_checkpoint p r stage key value status metadata t (xs ++ [m]) =
      xs ++ [updatedRow value status metadata t m] := by
  induction xs with
  | nil => simp [set_checkpoint, hm]
  | cons row rest ih =>
    have hrow : keyMatches p r stage key row = false := hxs row (by simp)
    have hrest : ∀ x ∈ rest, keyMatches p r stage key x = false := by
      intro x hx; exact hxs x (by simp [hx])
    simp [set_checkpoint, hrow, ih hrest]

lemma countMatching_append_single (p r stage key : String)
    (xs : List CheckpointRow) (y : CheckpointRow)
    (hxs : ∀ row ∈ xs, keyMatches p r stage key row = false)
    (hy : keyMatches p r stage key y = true) :
    countMatching p r stage key (xs ++ [y]) = 1 := by
  unfold countMatching
  rw [List.filter_append, List.filter_eq_nil_iff.mpr (by intro a ha; simp [hxs a ha])]
  simp [hy]

lemma findMatching_append_single (p r stage key : String)
    (xs : List CheckpointRow) (y : CheckpointRow)
    (hxs : ∀ row ∈ xs, keyMatches p r stage key row = false)
    (hy : keyMatches p r stage key y = true) :
    findMatching p r stage key (xs ++ [y]) = some y := by
  induction xs with
  | nil => simp [findMatching, List.find?, hy]
  | cons row rest ih =>
    have hrow : keyMatches p r stage key row = false := hxs row (by simp)
    have hrest : ∀ x ∈ rest, keyMatches p r stage key x = false := by
      intro x hx; exact hxs x (by simp [hx])
    simpa [findMatching, List.find?, hrow] using ih hrest


lemma keyMatches_updatedRow (p r stage key value status : String)
    (metadata : Option Meta) (t : Nat) (row : CheckpointRow) :
    keyMatches p r stage key (updatedRow value status metadata t row) =
      keyMatches p r stage key row := rfl

lemma countMatching_cons (p r stage key : String) (row : CheckpointRow)
    (rest : List CheckpointRow) :
    countMatching p r stage key (row :: rest) =
      (if keyMatches p r stage key row then 1 else 0) +
        countMatching p r stage key rest := by
  by_cases h : keyMatches p r stage key row
  · simp [countMatching, List.filter_cons, h]
    omega
  · simp [countMatching, List.filter_cons, h]

lemma countMatching_set_checkpoint (p r stage key value status : String)
    (metadata : Option Meta) (t : Nat) :
    ∀ (table : List CheckpointRow), countMatching p r stage key table ≤ 1 →
      countMatching p r stage key
        (set_checkpoint p r stage key value status metadata t table) = 1 := by
  intro table
  induction table with
  | nil =>
    intro _
    simp [set_checkpoint, countMatching, List.filter,
      keyMatches_insertedRow p r stage key value status metadata t]
  | cons row rest ih =>
    intro h
    rw [countMatching_cons] at h
    by_cases hrow : keyMatches p r stage key row
    · rw [if_pos hrow] at h
      have hrest : countMatching p r stage key rest = 0 := by omega
      rw [show set_checkpoint p r stage key value status metadata t (row :: rest) =
          updatedRow value status metadata t row :: rest from by
        simp [set_checkpoint, hrow]]
      rw [countMatching_cons, keyMatches_updatedRow, if_pos hrow, hrest]
    · rw [if_neg hrow] at h
      rw [show set_checkpoint p r stage key value status metadata t (row :: rest) =
          row :: set_checkpoint p r stage key value status metadata t rest from by
        simp [set_checkpoint, hrow]]
      rw [countMatching_cons, if_neg hrow, ih (by omega)]

/-- C5: on any table respecting the unique-key constraint (at most one row
for the unit), calling set_checkpoint twice with identical arguments
leaves exactly one row for that (stage, key) — the upsert never creates a
duplicate; and when the unit was absent, the surviving row carries the
value, status, end_time, duration_ms and metadata of the second call while
its start_time is the timestamp written by the first call. -/
theorem set_checkpoint_twice_idempotent (p r stage key value status : String)
    (metadata : Option Meta) (t1 t2 : Nat) (table : List CheckpointRow) :
    (countMatching p r stage key table ≤ 1 →
      countMatching p r stage key
        (set_checkpoint p r stage key value status metadata t2
          (set_checkpoint p r stage key value status metadata t1 table)) = 1) ∧
    (countMatching p r stage key table = 0 →
      findMatching p r stage key
        (set_checkpoint p r stage key value status metadata t2
          (set_checkpoint p r stage key value status metadata t1 table)) =
      some { pipeline_name := p, run_id := r, stage := stage,
             checkpoint_key := key, checkpoint_value := some value,
             status := status, start_time := some t1, end_time := some t2,
             duration_ms := some (metaDuration metadata),
             metadata := metaJson metadata, updated_at := some t2 }) := by
  constructor
  · intro h
    exact countMatching_set_checkpoint p r stage key value status metadata t2 _
      (le_of_eq (countMatching_set_checkpoint p r stage key value status
        metadata t1 table h))
  · intro h
    have habs := countMatching_eq_zero h
    have h1 := set_checkpoint_of_absent p r stage key value status metadata t1
      table habs
    have h2 := set_checkpoint_append_match p r stage key value status metadata t2
      table (insertedRow p r stage key value status metadata t1) habs
      (keyMatches_insertedRow p r stage key value status metadata t1)
    rw [h1, h2]
    have hupd : updatedRow value status metadata t2
        (insertedRow p r stage key value status metadata t1) =
        { pipeline_name := p, run_id := r, stage := stage,
          checkpoint_key := key, checkpoint_value := some value,
          status := status, start_time := some t1, end_time := some t2,
          duration_ms := some (metaDuration metadata),
          metadata := metaJson metadata, updated_at := some t2 } := by
      simp [updatedRow, insertedRow]
    have hkey : keyMatches p r stage key (updatedRow value status metadata t2
        (insertedRow p r stage key value status metadata t1)) = true := by
      simp [updatedRow, keyMatches, insertedRow]
    rw [findMatching_append_single p r stage key table _ habs hkey, hupd]

/-- Witness for set_checkpoint_twice_idempotent on the empty table. -/
theorem set_checkpoint_twice_idempotent_witness :
    (countMatching "pl" "run1" "s" "k"
        (set_checkpoint "pl" "run1" "s" "k" "v" "completed" none 7
          (set_checkpoint "pl" "run1" "s" "k" "v" "completed" none 3 [])) = 1) ∧
    (findMatching "pl" "run1" "s" "k"
        (set_checkpoint "pl" "run1" "s" "k" "v" "completed" none 7
          (set_checkpoint "pl" "run1" "s" "k" "v" "completed" none 3 [])) =
      some { pipeline_name := "pl", run_id := "run1", stage := "s",
             checkpoint_key := "k", checkpoint_value := some "v",
             status := "completed", start_time := some 3, end_time := some 7,
             duration_ms := some (metaDuration none),
             metadata := metaJson none, updated_at := some 7 }) :=
  ⟨(set_checkpoint_twice_idempotent "pl" "run1" "s" "k" "v" "completed"
      none 3 7 []).1 (by decide),
   (set_checkpoint_twice_idempotent "pl" "run1" "s" "k" "v" "completed"
      none 3 7 []).2 rfl⟩

/-- C8: a second start_stage on an already-started unit is a no-op: the
whole table, hence the original start_time and status, is left exactly as
the first call wrote it, and no new row is inserted; moreover on a table
without the unit the first call inserts the in_progress row with its own
start_time. -/
theorem start_stage_second_call_noop (p r stage key : String) (t1 t2 : Nat)
    (table : List CheckpointRow) :
    start_stage p r stage key t2 (start_stage p r stage key t1 table) =
      start_stage p r stage key t1 table ∧
    (countMatching p r stage key table = 0 →
      findMatching p r stage key (start_stage p r stage key t1 table) =
        some (startRow p r stage key t1)) := by
  constructor
  · unfold start_stage
    by_cases hany : table.any (keyMatches p r stage key)
    · simp [hany]
    · simp only [hany, if_false, Bool.false_eq_true]
      have : (table ++ [startRow p r stage key t1]).any
          (keyMatches p r stage key) = true := by
        rw [List.any_append]
        simp [List.any, keyMatches_startRow]
      simp [this]
  · intro h
    have habs := countMatching_eq_zero h
    have hany : table.any (keyMatches p r stage key) = false := by
      rw [List.any_eq_false]
      intro x hx
      simp [habs x hx]
    unfold start_stage
    rw [hany]
    simp only [Bool.false_eq_true, if_false]
    exact findMatching_append_single p r stage key table _ habs
      (keyMatches_startRow p r stage key t1)

/-- Witness for start_stage_second_call_noop on the empty table. -/
theorem start_stage_second_call_noop_witness :
    (start_stage "pl" "run1" "s" "k" 9 (start_stage "pl" "run1" "s" "k" 4 []) =
      start_stage "pl" "run1" "s" "k" 4 [] ∧
    findMatching "pl" "run1" "s" "k" (start_stage "pl" "run1" "s" "k" 4 []) =
      some (startRow "pl" "run1" "s" "k" 4)) :=
  ⟨(start_stage_second_call_noop "pl" "run1" "s" "k" 4 9 []).1,
   (start_stage_second_call_noop "pl" "run1" "s" "k" 4 9 []).2 rfl⟩


/-- One run of the retry_with_backoff wrapper, observed as: the value
returned or the exception finally re-raised (error none models the
degenerate raise of the initial last_exception = None when max_attempts
is 0), how many times the wrapped operation was invoked, and the list of
backoff delays slept, in order. -/
structure RetryTrace (E A : Type) where
  result : Except (Option E) A
  invocations : Nat
  sleeps : List ℚ

/-- Loop body of retry_with_backoff: remaining loop iterations and the
current 0-indexed attempt number.  The operation is a pure function from
the attempt number to its outcome; jitter models random.random() at each
attempt.  A success returns at once; a failure on a non-final attempt
sleeps base_delay * 2 ^ attempt + jitter attempt and continues; a failure
on the final attempt ends the loop and the stored last exception is
re-raised unchanged. -/
def retryGo {E A : Type} (op : Nat → Except E A) (base_delay : ℚ)
    (jitter : Nat → ℚ) : Nat → Nat → RetryTrace E A
  | 0, _ => ⟨Except.error none, 0, []⟩
  | remaining + 1, attempt =>
    match op attempt with
    | Except.ok a => ⟨Except.ok a, 1, []⟩
    | Except.error e =>
      if remaining = 0 then ⟨Except.error (some e), 1, []⟩
      else
        ⟨(retryGo op base_delay jitter remaining (attempt + 1)).result,
         (retryGo op base_delay jitter remaining (attempt + 1)).invocations + 1,
         (base_delay * 2 ^ attempt + jitter attempt) ::
           (retryGo op base_delay jitter remaining (attempt + 1)).sleeps⟩

/-- retry_with_backoff(max_attempts, base_delay) of reliable_pipeline.py
applied to an operation. -/
def retry_with_backoff {E A : Type} (max_attempts : Nat) (base_delay : ℚ)
    (jitter : Nat → ℚ) (op : Nat → Except E A) : RetryTrace E A :=
  retryGo op base_delay jitter max_attempts 0

lemma retryGo_ok {E A : Type} {op : Nat → Except E A} {a : A}
    (base_delay : ℚ) (jitter : Nat → ℚ) (rem attempt : Nat)
    (hop : op attempt = Except.ok a) :
    retryGo op base_delay jitter (rem + 1) attempt = ⟨Except.ok a, 1, []⟩ := by
  simp [retryGo, hop]

lemma retryGo_last_error {E A : Type} {op : Nat → Except E A} {e : E}
    (base_delay : ℚ) (jitter : Nat → ℚ) (attempt : Nat)
    (hop : op attempt = Except.error e) :
    retryGo op base_delay jitter 1 attempt =
      ⟨Except.error (some e), 1, []⟩ := by
  simp [retryGo, hop]

lemma retryGo_step_error {E A : Type} {op : Nat → Except E A} {e : E}
    (base_delay : ℚ) (jitter : Nat → ℚ) (rem attempt : Nat)
    (hrem : rem ≠ 0) (hop : op attempt = Except.error e) :
    retryGo op base_delay jitter (rem + 1) attempt =
      ⟨(retryGo op base_delay jitter rem (attempt + 1)).result,
       (retryGo op base_delay jitter rem (attempt + 1)).invocations + 1,
       (base_delay * 2 ^ attempt + jitter attempt) ::
         (retryGo op base_delay jitter rem (attempt + 1)).sleeps⟩ := by
  simp [retryGo, hop, hrem]

lemma cons_delay_eq_map (base_delay : ℚ) (jitter : Nat → ℚ) (attempt L : Nat) :
    (base_delay * 2 ^ attempt + jitter attempt) ::
      (List.range L).map
        (fun i => base_delay * 2 ^ (attempt + 1 + i) + jitter (attempt + 1 + i)) =
    (List.range (L + 1)).map
      (fun i => base_delay * 2 ^ (attempt + i) + jitter (attempt + i)) := by
  rw [List.range_succ_eq_map, List.map_cons, List.map_map]
  refine congrArg₂ List.cons (by rw [Nat.add_zero]) ?_
  refine (List.map_congr_left ?_).symm
  intro i _
  simp only [Function.comp_apply]
  rw [show attempt + (i + 1) = attempt + 1 + i from by omega]

lemma retryGo_succeeds {E A : Type} (op : Nat → Except E A) (base_delay : ℚ)
    (jitter : Nat → ℚ) (a : A) :
    ∀ (k remaining attempt : Nat), k < remaining →
      (∀ i < k, ∃ e, op (attempt + i) = Except.error e) →
      op (attempt + k) = Except.ok a →
      retryGo op base_delay jitter remaining attempt =
        ⟨Except.ok a, k + 1, (List.range k).map
          (fun i => base_delay * 2 ^ (attempt + i) + jitter (attempt + i))⟩ := by
  intro k
  induction k with
  | zero =>
    intro remaining attempt hlt _ hok
    obtain ⟨rem, rfl⟩ : ∃ rem, remaining = rem + 1 :=
      ⟨remaining - 1, (Nat.succ_pred_eq_of_pos hlt).symm⟩
    have hok0 : op attempt = Except.ok a := by simpa using hok
    rw [retryGo_ok base_delay jitter rem attempt hok0]
    simp
  | succ k ih =>
    intro remaining attempt hlt hfail hok
    obtain ⟨rem, rfl⟩ : ∃ rem, remaining = rem + 1 :=
      ⟨remaining - 1,
        (Nat.succ_pred_eq_of_pos (Nat.lt_of_le_of_lt (Nat.zero_le _) hlt)).symm⟩
    obtain ⟨e0, he0⟩ := hfail 0 (Nat.succ_pos k)
    rw [show attempt + 0 = attempt from rfl] at he0
    have hrem : rem ≠ 0 := by omega
    have hih := ih rem (attempt + 1) (by omega)
      (by
        intro i hi
        obtain ⟨e, he⟩ := hfail (i + 1) (by omega)
        exact ⟨e, by rw [show attempt + 1 + i = attempt + (i + 1) from by omega]; exact he⟩)
      (by rw [show attempt + 1 + k = attempt + (k + 1) from by omega]; exact hok)
    rw [retryGo_step_error base_delay jitter rem attempt hrem he0, hih]
    exact congrArg (RetryTrace.mk (Except.ok a) (k + 1 + 1))
      (cons_delay_eq_map base_delay jitter attempt k)

lemma retryGo_exhausts {E A : Type} (op : Nat → Except E A) (base_delay : ℚ)
    (jitter : Nat → ℚ) (elast : E) :
    ∀ (remaining attempt : Nat), 1 ≤ remaining →
      (∀ i < remaining, ∃ e, op (attempt + i) = Except.error e) →
      op (attempt + (remaining - 1)) = Except.error elast →
      retryGo op base_delay jitter remaining attempt =
        ⟨Except.error (some elast), remaining, (List.range (remaining - 1)).map
          (fun i => base_delay * 2 ^ (attempt + i) + jitter (attempt + i))⟩ := by
  intro remaining
  induction remaining with
  | zero => intro attempt h; omega
  | succ rem ih =>
    intro attempt _ hfail hlast
    by_cases hrem : rem = 0
    · subst hrem
      have hlast0 : op attempt = Except.error elast := by simpa using hlast
      rw [retryGo_last_error base_delay jitter attempt hlast0]
      simp
    · obtain ⟨e0, he0⟩ := hfail 0 (Nat.succ_pos rem)
      rw [show attempt + 0 = attempt from rfl] at he0
      have hih := ih (attempt + 1) (by omega)
        (by
          intro i hi
          obtain ⟨e, he⟩ := hfail (i + 1) (by omega)
          exact ⟨e, by rw [show attempt + 1 + i = attempt + (i + 1) from by omega]; exact he⟩)
        (by
          rw [show attempt + 1 + (rem - 1) = attempt + (rem + 1 - 1) from by omega]
          exact hlast)
      rw [retryGo_step_error base_delay jitter rem attempt hrem he0, hih]
      obtain ⟨rp, rfl⟩ : ∃ rp, rem = rp + 1 := ⟨rem - 1, by omega⟩
      rw [show rp + 1 + 1 - 1 = rp + 1 from rfl, show rp + 1 - 1 = rp from rfl]
      exact congrArg (RetryTrace.mk (Except.error (some elast)) (rp + 1 + 1))
        (cons_delay_eq_map base_delay jitter attempt rp)

lemma retryGo_trace_shape {E A : Type} (op : Nat → Except E A) (base_delay : ℚ)
    (jitter : Nat → ℚ) :
    ∀ (remaining attempt : Nat), 1 ≤ remaining →
      (retryGo op base_delay jitter remaining attempt).invocations =
        (retryGo op base_delay jitter remaining attempt).sleeps.length + 1 ∧
      (retryGo op base_delay jitter remaining attempt).sleeps =
        (List.range (retryGo op base_delay jitter remaining attempt).sleeps.length).map
          (fun i => base_delay * 2 ^ (attempt + i) + jitter (attempt + i)) := by
  intro remaining
  induction remaining with
  | zero => intro attempt h; omega
  | succ rem ih =>
    intro attempt _
    by_cases hrem : rem = 0
    · subst hrem
      match hop : op attempt with
      | Except.ok a => rw [retryGo_ok base_delay jitter 0 attempt hop]; simp
      | Except.error e => rw [retryGo_last_error base_delay jitter attempt hop]; simp
    · match hop : op attempt with
      | Except.ok a => rw [retryGo_ok base_delay jitter rem attempt hop]; simp
      | Except.error e =>
        have hih := ih (attempt + 1) (by omega)
        rw [retryGo_step_error base_delay jitter rem attempt hrem hop]
        refine ⟨by simp [hih.1], ?_⟩
        simp only [List.length_cons]
        rw [← cons_delay_eq_map base_delay jitter attempt
          (retryGo op base_delay jitter rem (attempt + 1)).sleeps.length]
        exact congrArg (List.cons _) hih.2


/-- C6: if the operation fails on its first k invocations and succeeds on
invocation k+1 with k+1 ≤ max_attempts, the wrapper returns that success
after exactly k+1 invocations; if it fails on every invocation, the
wrapper invokes it exactly max_attempts times and re-raises the last
failure unchanged; with max_attempts = 1 the first failure propagates
immediately, with no retry and no sleep. -/
theorem retry_with_backoff_attempts {E A : Type} (op : Nat → Except E A)
    (max_attempts k : Nat) (base_delay : ℚ) (jitter : Nat → ℚ)
    (a : A) (elast : E) :
    (k + 1 ≤ max_attempts →
      (∀ i < k, ∃ e, op i = Except.error e) →
      op k = Except.ok a →
      (retry_with_backoff max_attempts base_delay jitter op).result =
          Except.ok a ∧
        (retry_with_backoff max_attempts base_delay jitter op).invocations =
          k + 1) ∧
    (1 ≤ max_attempts →
      (∀ i < max_attempts, ∃ e, op i = Except.error e) →
      op (max_attempts - 1) = Except.error elast →
      (retry_with_backoff max_attempts base_delay jitter op).result =
          Except.error (some elast) ∧
        (retry_with_backoff max_attempts base_delay jitter op).invocations =
          max_attempts) ∧
    (max_attempts = 1 → op 0 = Except.error elast →
      (retry_with_backoff max_attempts base_delay jitter op).result =
          Except.error (some elast) ∧
        (retry_with_backoff max_attempts base_delay jitter op).invocations = 1 ∧
        (retry_with_backoff max_attempts base_delay jitter op).sleeps = []) := by
  refine ⟨?_, ?_, ?_⟩
  · intro hk hfail hok
    have := retryGo_succeeds op base_delay jitter a k max_attempts 0
      (by omega) (by simpa using hfail) (by simpa using hok)
    rw [retry_with_backoff, this]
    exact ⟨rfl, rfl⟩
  · intro hmax hfail hlast
    have := retryGo_exhausts op base_delay jitter elast max_attempts 0
      hmax (by simpa using hfail) (by simpa using hlast)
    rw [retry_with_backoff, this]
    exact ⟨rfl, rfl⟩
  · intro hmax hop
    subst hmax
    rw [retry_with_backoff, retryGo_last_error base_delay jitter 0 hop]
    exact ⟨rfl, rfl, rfl⟩

/-- Witness for retry_with_backoff_attempts: an operation failing twice
then succeeding with max_attempts = 3 returns the success after exactly 3
invocations; an always-failing operation raises its last failure after
exactly 3 invocations; with max_attempts = 1 the first failure propagates
with no sleep. -/
theorem retry_with_backoff_attempts_witness :
    ((retry_with_backoff 3 (1 / 10) (fun _ => 0)
        (fun i => if i < 2 then Except.error "boom" else Except.ok 42)).result =
        Except.ok 42 ∧
      (retry_with_backoff 3 (1 / 10) (fun _ => 0)
        (fun i => if i < 2 then Except.error "boom" else Except.ok 42)).invocations =
        3) ∧
    ((retry_with_backoff 3 (1 / 10) (fun _ => 0)
        (fun _ => (Except.error "down" : Except String Nat))).result =
        Except.error (some "down") ∧
      (retry_with_backoff 3 (1 / 10) (fun _ => 0)
        (fun _ => (Except.error "down" : Except String Nat))).invocations = 3) ∧
    ((retry_with_backoff 1 (1 / 10) (fun _ => 0)
        (fun _ => (Except.error "down" : Except String Nat))).result =
        Except.error (some "down") ∧
      (retry_with_backoff 1 (1 / 10) (fun _ => 0)
        (fun _ => (Except.error "down" : Except String Nat))).invocations = 1 ∧
      (retry_with_backoff 1 (1 / 10) (fun _ => 0)
        (fun _ => (Except.error "down" : Except String Nat))).sleeps = []) := by
  refine ⟨?_, ?_, ?_⟩
  · exact (retry_with_backoff_attempts
      (fun i => if i < 2 then Except.error "boom" else Except.ok 42)
      3 2 (1 / 10) (fun _ => 0) 42 "boom").1 (by omega)
      (by intro i hi; exact ⟨"boom", by simp [hi]⟩) (by simp)
  · exact ((retry_with_backoff_attempts
      (fun _ => (Except.error "down" : Except String Nat))
      3 0 (1 / 10) (fun _ => 0) 0 "down").2.1 (by omega)
      (by intro i _; exact ⟨"down", rfl⟩) rfl)
  · exact ((retry_with_backoff_attempts
      (fun _ => (Except.error "down" : Except String Nat))
      1 0 (1 / 10) (fun _ => 0) 0 "down").2.2 rfl rfl)


/-- C9: for max_attempts ≥ 1, the wrapper sleeps exactly once per failed
non-final attempt (invocations = sleeps + 1, so no sleep follows the final
failed attempt or a success), the sleep before retry i+1 is exactly
base_delay * 2 ^ i + jitter i, and when jitter is a uniform draw from
[0, 1) that sleep is at least base_delay * 2 ^ i and less than
base_delay * 2 ^ i + 1. -/
theorem retry_with_backoff_sleep_schedule {E A : Type} (op : Nat → Except E A)
    (max_attempts : Nat) (base_delay : ℚ) (jitter : Nat → ℚ)
    (hmax : 1 ≤ max_attempts) :
    (retry_with_backoff max_attempts base_delay jitter op).invocations =
      (retry_with_backoff max_attempts base_delay jitter op).sleeps.length + 1 ∧
    (retry_with_backoff max_attempts base_delay jitter op).sleeps =
      (List.range
          (retry_with_backoff max_attempts base_delay jitter op).sleeps.length).map
        (fun i => base_delay * 2 ^ i + jitter i) ∧
    ((∀ i, 0 ≤ jitter i ∧ jitter i < 1) →
      ∀ (i : Nat)
        (h : i < (retry_with_backoff max_attempts base_delay jitter op).sleeps.length),
        base_delay * 2 ^ i ≤
            (retry_with_backoff max_attempts base_delay jitter op).sleeps.get ⟨i, h⟩ ∧
          (retry_with_backoff max_attempts base_delay jitter op).sleeps.get ⟨i, h⟩ <
            base_delay * 2 ^ i + 1) := by
  have hshape := retryGo_trace_shape op base_delay jitter max_attempts 0 hmax
  have hsl : (retry_with_backoff max_attempts base_delay jitter op).sleeps =
      (List.range
          (retry_with_backoff max_attempts base_delay jitter op).sleeps.length).map
        (fun i => base_delay * 2 ^ i + jitter i) := by
    have := hshape.2
    simpa [retry_with_backoff] using this
  refine ⟨by simpa [retry_with_backoff] using hshape.1, hsl, ?_⟩
  intro hj i h
  have hval : (retry_with_backoff max_attempts base_delay jitter op).sleeps.get ⟨i, h⟩ =
      base_delay * 2 ^ i + jitter i := by
    rw [List.get_eq_getElem]
    conv_lhs => rw [List.getElem_of_eq hsl]
    rw [List.getElem_map, List.getElem_range]
  rw [hval]
  have hji := hj i
  constructor
  · linarith [hji.1]
  · linarith [hji.2]

/-- Witness for retry_with_backoff_sleep_schedule: an always-failing
operation under max_attempts = 3, base_delay = 1/10 and jitter
constantly 1/2 sleeps exactly twice, 1/10 * 1 + 1/2 then 1/10 * 2 + 1/2. -/
theorem retry_with_backoff_sleep_schedule_witness :
    (retry_with_backoff 3 (1 / 10) (fun _ => 1 / 2)
        (fun _ => (Except.error "down" : Except String Nat))).invocations =
      (retry_with_backoff 3 (1 / 10) (fun _ => 1 / 2)
        (fun _ => (Except.error "down" : Except String Nat))).sleeps.length + 1 ∧
    (retry_with_backoff 3 (1 / 10) (fun _ => 1 / 2)
        (fun _ => (Except.error "down" : Except String Nat))).sleeps =
      (List.range
          (retry_with_backoff 3 (1 / 10) (fun _ => 1 / 2)
            (fun _ => (Except.error "down" : Except String Nat))).sleeps.length).map
        (fun i => 1 / 10 * 2 ^ i + 1 / 2) ∧
    ∀ (i : Nat)
      (h : i < (retry_with_backoff 3 (1 / 10) (fun _ => 1 / 2)
        (fun _ => (Except.error "down" : Except String Nat))).sleeps.length),
      (1 : ℚ) / 10 * 2 ^ i ≤
          (retry_with_backoff 3 (1 / 10) (fun _ => 1 / 2)
            (fun _ => (Except.error "down" : Except String Nat))).sleeps.get ⟨i, h⟩ ∧
        (retry_with_backoff 3 (1 / 10) (fun _ => 1 / 2)
          (fun _ => (Except.error "down" : Except String Nat))).sleeps.get ⟨i, h⟩ <
          1 / 10 * 2 ^ i + 1 := by
  have := retry_with_backoff_sleep_schedule
    (fun _ => (Except.error "down" : Except String Nat)) 3 (1 / 10)
    (fun _ => 1 / 2) (by omega)
  exact ⟨this.1, this.2.1, this.2.2 (by intro i; norm_num)⟩


/-- The three circuit breaker states of fail_retry_exhaustion.py. -/
inductive CBState where
  | closed
  | opened
  | halfOpen
  deriving Repr, DecidableEq

/-- The CircuitBreaker object.  failure_count starts at 0 and
last_failure_time at None; the latter is modelled as a plain rational
initialised to 0, since the code only reads it in the OPEN state, which is
reachable only after a failure has assigned it. -/
structure CircuitBreaker where
  failure_threshold : Nat
  timeout : ℚ
  failure_count : Nat
  last_failure_time : ℚ
  state : CBState
  deriving Repr, DecidableEq

/-- CircuitBreaker.__init__(failure_threshold, timeout): CLOSED with the
failure counter at 0. -/
def CircuitBreaker.init (failure_threshold : Nat) (timeout : ℚ) :
    CircuitBreaker :=
  ⟨failure_threshold, timeout, 0, 0, CBState.closed⟩

/-- What one CircuitBreaker.call is observed to do: pass the return value
through, re-raise the exception of the operation, or fail fast with the
circuit-open error. -/
inductive CallOutcome (E A : Type) where
  | returned (a : A)
  | raised (e : E)
  | circuitBlocked
  deriving DecidableEq

/-- One call observed in full: its outcome, the breaker afterwards,
whether the wrapped operation was invoked, and the breaker state at the
moment of invocation (none when the call was blocked). -/
structure CallResult (E A : Type) where
  outcome : CallOutcome E A
  breaker : CircuitBreaker
  invoked : Bool
  stateAtCall : Option CBState

/-- Body of CircuitBreaker.call after the OPEN fast-fail check: invoke the
operation; on success, a HALF_OPEN breaker closes and resets its counter
while any other state is left untouched; on failure, increment the
counter, record the failure time and open once the counter reaches the
threshold, re-raising the exception. -/
def CircuitBreaker.invokeOp {E A : Type} (cb : CircuitBreaker) (now : ℚ)
    (op : Except E A) : CallResult E A :=
  match op with
  | Except.ok a =>
    if cb.state = CBState.halfOpen then
      ⟨CallOutcome.returned a,
        { cb with state := CBState.closed, failure_count := 0 },
        true, some cb.state⟩
    else
      ⟨CallOutcome.returned a, cb, true, some cb.state⟩
  | Except.error e =>
    if cb.failure_count + 1 ≥ cb.failure_threshold then
      ⟨CallOutcome.raised e,
        { cb with
            failure_count := cb.failure_count + 1
            last_failure_time := now
            state := CBState.opened },
        true, some cb.state⟩
    else
      ⟨CallOutcome.raised e,
        { cb with
            failure_count := cb.failure_count + 1
            last_failure_time := now },
        true, some cb.state⟩

/-- CircuitBreaker.call of fail_retry_exhaustion.py: an OPEN breaker whose
cooldown has elapsed (now - last_failure_time > timeout) moves to
HALF_OPEN and then invokes; an OPEN breaker within the cooldown raises the
circuit-open error without invoking; any other state invokes directly. -/
def CircuitBreaker.call {E A : Type} (cb : CircuitBreaker) (now : ℚ)
    (op : Except E A) : CallResult E A :=
  if cb.state = CBState.opened then
    if now - cb.last_failure_time > cb.timeout then
      CircuitBreaker.invokeOp { cb with state := CBState.halfOpen } now op
    else
      ⟨CallOutcome.circuitBlocked, cb, false, none⟩
  else
    CircuitBreaker.invokeOp cb now op

/-- Counterexample to C2 as stated: with failure_threshold = 2, the
sequence failure, success, failure opens the breaker, because a success in
the CLOSED state leaves the failure counter at 1 instead of resetting it
to 0; under the claim the breaker would still be CLOSED with counter 1. -/
theorem circuit_breaker_closed_success_counterexample :
    (((CircuitBreaker.init 2 60).call 0
          (Except.error "f1" : Except String Nat)).breaker.call 1
        (Except.ok 7 : Except String Nat)).breaker.failure_count = 1 ∧
    ((((CircuitBreaker.init 2 60).call 0
          (Except.error "f1" : Except String Nat)).breaker.call 1
        (Except.ok 7 : Except String Nat)).breaker.call 2
        (Except.error "f2" : Except String Nat)).breaker.state =
      CBState.opened := by
  constructor
  · rfl
  · rfl

/-- C2 amended: a successful call while the breaker is CLOSED leaves the
breaker entirely unchanged — in particular the failure counter is not
reset (only a successful HALF_OPEN trial resets it), so failure_threshold
cumulative failures, even interleaved with successes, open the breaker. -/
theorem circuit_breaker_closed_success_unchanged {E A : Type}
    (cb : CircuitBreaker) (now : ℚ) (a : A)
    (h : cb.state = CBState.closed) :
    cb.call now (Except.ok a : Except E A) =
      ⟨CallOutcome.returned a, cb, true, some CBState.closed⟩ := by
  rw [CircuitBreaker.call, if_neg (by rw [h]; intro hc; cases hc)]
  rw [CircuitBreaker.invokeOp]
  rw [if_neg (by rw [h]; intro hc; cases hc), h]

/-- Witness for circuit_breaker_closed_success_unchanged: a CLOSED breaker
that already counts 1 failure is untouched by a success. -/
theorem circuit_breaker_closed_success_unchanged_witness :
    CircuitBreaker.call ⟨2, 60, 1, 0, CBState.closed⟩ 5
        (Except.ok 7 : Except String Nat) =
      ⟨CallOutcome.returned 7, ⟨2, 60, 1, 0, CBState.closed⟩, true,
        some CBState.closed⟩ :=
  circuit_breaker_closed_success_unchanged ⟨2, 60, 1, 0, CBState.closed⟩ 5 7 rfl

/-- C7: an OPEN breaker blocks a call within the cooldown without invoking
the operation; after the cooldown it invokes the operation once with the
breaker in HALF_OPEN; and a successful trial closes the breaker and resets
the failure counter to 0. -/
theorem circuit_breaker_open_transitions {E A : Type} (cb : CircuitBreaker)
    (now : ℚ) (op : Except E A) (a : A)
    (hopen : cb.state = CBState.opened) :
    (¬ (now - cb.last_failure_time > cb.timeout) →
      cb.call now op = ⟨CallOutcome.circuitBlocked, cb, false, none⟩) ∧
    (now - cb.last_failure_time > cb.timeout →
      (cb.call now op).invoked = true ∧
      (cb.call now op).stateAtCall = some CBState.halfOpen) ∧
    (now - cb.last_failure_time > cb.timeout → op = Except.ok a →
      (cb.call now op).breaker.state = CBState.closed ∧
      (cb.call now op).breaker.failure_count = 0 ∧
      (cb.call now op).outcome = CallOutcome.returned a) := by
  refine ⟨?_, ?_, ?_⟩
  · intro hcool
    rw [CircuitBreaker.call, if_pos hopen, if_neg hcool]
  · intro hcool
    rw [CircuitBreaker.call, if_pos hopen, if_pos hcool]
    match op with
    | Except.ok a => simp [CircuitBreaker.invokeOp]
    | Except.error e =>
      by_cases hthr : cb.failure_count + 1 ≥ cb.failure_threshold
      · simp [CircuitBreaker.invokeOp, hthr]
      · simp [CircuitBreaker.invokeOp, hthr]
  · intro hcool hok
    subst hok
    rw [CircuitBreaker.call, if_pos hopen, if_pos hcool]
    simp [CircuitBreaker.invokeOp]

/-- Witness for circuit_breaker_open_transitions: an OPEN breaker with
last failure at time 0 and cooldown 5 blocks a call at time 3, and at
time 6 runs the trial in HALF_OPEN; the successful trial closes the
breaker with the counter back at 0. -/
theorem circuit_breaker_open_transitions_witness :
    (CircuitBreaker.call ⟨2, 5, 2, 0, CBState.opened⟩ 3
        (Except.ok 7 : Except String Nat) =
      ⟨CallOutcome.circuitBlocked, ⟨2, 5, 2, 0, CBState.opened⟩, false, none⟩) ∧
    ((CircuitBreaker.call ⟨2, 5, 2, 0, CBState.opened⟩ 6
        (Except.ok 7 : Except String Nat)).invoked = true ∧
      (CircuitBreaker.call ⟨2, 5, 2, 0, CBState.opened⟩ 6
        (Except.ok 7 : Except String Nat)).stateAtCall = some CBState.halfOpen) ∧
    ((CircuitBreaker.call ⟨2, 5, 2, 0, CBState.opened⟩ 6
        (Except.ok 7 : Except String Nat)).breaker.state = CBState.closed ∧
      (CircuitBreaker.call ⟨2, 5, 2, 0, CBState.opened⟩ 6
        (Except.ok 7 : Except String Nat)).breaker.failure_count = 0 ∧
      (CircuitBreaker.call ⟨2, 5, 2, 0, CBState.opened⟩ 6
        (Except.ok 7 : Except String Nat)).outcome = CallOutcome.returned 7) := by
  have h1 := circuit_breaker_open_transitions
    (E := String) ⟨2, 5, 2, 0, CBState.opened⟩ 3 (Except.ok 7) 7 rfl
  have h2 := circuit_breaker_open_transitions
    (E := String) ⟨2, 5, 2, 0, CBState.opened⟩ 6 (Except.ok 7) 7 rfl
  refine ⟨h1.1 (by norm_num), h2.2.1 (by norm_num), h2.2.2 (by norm_num) rfl⟩


/-- One structured record as built by RobustLogger.log before any sink is
tried: timestamp, level, message, pipeline identity, run identity and
metadata, all captured once from the arguments of the call. -/
structure LogEntry where
  timestamp : Nat
  level : String
  message : String
  pipeline_name : String
  run_id : String
  metadata : Meta
  deriving Repr, DecidableEq

/-- The four destinations of the robust logger: the database table, the
fallback JSON-lines file, the critical plaintext file, and the non-failing
standard error stream used as the absolute last resort. -/
structure LogSinks where
  db : List LogEntry
  file : List LogEntry
  critical : List String
  err_stream : List String
  deriving Repr, DecidableEq

/-- Per-call fault injection: whether the database insert, the fallback
file write, or the critical file write raises on this call. -/
structure SinkFailures where
  db_fails : Bool
  file_fails : Bool
  critical_fails : Bool
  deriving Repr, DecidableEq

/-- RobustLogger._log_to_database: True on success, False when the insert
raises (the handler swallows the exception). -/
def logToDatabase (fails : Bool) (entry : LogEntry) (sinks : LogSinks) :
    Bool × LogSinks :=
  if fails then (false, sinks)
  else (true, { sinks with db := sinks.db ++ [entry] })

/-- RobustLogger._log_to_file: True on success, False when the append
raises (the handler swallows the exception). -/
def logToFile (fails : Bool) (entry : LogEntry) (sinks : LogSinks) :
    Bool × LogSinks :=
  if fails then (false, sinks)
  else (true, { sinks with file := sinks.file ++ [entry] })

/-- The minimal plaintext format of _log_to_critical_file:
timestamp - level - message. -/
def criticalLine (entry : LogEntry) : String :=
  toString entry.timestamp ++ " - " ++ entry.level ++ " - " ++ entry.message

/-- RobustLogger._log_to_critical_file: when even this write raises, the
handler prints CRITICAL: message to standard error and returns; it never
raises. -/
def logToCriticalFile (fails : Bool) (entry : LogEntry) (sinks : LogSinks) :
    LogSinks :=
  if fails then
    { sinks with err_stream := sinks.err_stream ++ ["CRITICAL: " ++ entry.message] }
  else
    { sinks with critical := sinks.critical ++ [criticalLine entry] }

/-- RobustLogger.log: build the record once, then try the database, the
fallback file and the critical file in that strict order, stopping at the
first success.  The function is total on every failure combination: no
sink failure raises to the caller. -/
def RobustLogger.log (fails : SinkFailures) (now : Nat)
    (level message : String) (metadata : Meta)
    (pipeline_name run_id : String) (sinks : LogSinks) : LogSinks :=
  let entry : LogEntry := ⟨now, level, message, pipeline_name, run_id, metadata⟩
  let d := logToDatabase fails.db_fails entry sinks
  if d.1 then d.2
  else
    let f := logToFile fails.file_fails entry d.2
    if f.1 then f.2
    else logToCriticalFile fails.critical_fails entry f.2

/-- C4: log returns a sink state (it is total, so it never raises) for
every failure combination; it writes the record to the first non-failing
sink in the strict order database, file, critical file, with the stderr
backstop when all three fail, and it touches no other sink; the record
written on fallback carries exactly the requested timestamp, level,
message, pipeline identity and run identity. -/
theorem robust_logger_tiered_fallback (fails : SinkFailures) (now : Nat)
    (level message : String) (metadata : Meta)
    (pipeline_name run_id : String) (sinks : LogSinks) :
    (fails.db_fails = false →
      RobustLogger.log fails now level message metadata pipeline_name run_id sinks =
        { sinks with db := sinks.db ++
            [⟨now, level, message, pipeline_name, run_id, metadata⟩] }) ∧
    (fails.db_fails = true → fails.file_fails = false →
      RobustLogger.log fails now level message metadata pipeline_name run_id sinks =
        { sinks with file := sinks.file ++
            [⟨now, level, message, pipeline_name, run_id, metadata⟩] }) ∧
    (fails.db_fails = true → fails.file_fails = true →
      fails.critical_fails = false →
      RobustLogger.log fails now level message metadata pipeline_name run_id sinks =
        { sinks with critical := sinks.critical ++
            [criticalLine ⟨now, level, message, pipeline_name, run_id, metadata⟩] }) ∧
    (fails.db_fails = true → fails.file_fails = true →
      fails.critical_fails = true →
      RobustLogger.log fails now level message metadata pipeline_name run_id sinks =
        { sinks with err_stream := sinks.err_stream ++
            ["CRITICAL: " ++ message] }) := by
  refine ⟨?_, ?_, ?_, ?_⟩
  · intro h1
    simp [RobustLogger.log, logToDatabase, h1]
  · intro h1 h2
    simp [RobustLogger.log, logToDatabase, logToFile, h1, h2]
  · intro h1 h2 h3
    simp [RobustLogger.log, logToDatabase, logToFile, logToCriticalFile, h1, h2, h3]
  · intro h1 h2 h3
    simp [RobustLogger.log, logToDatabase, logToFile, logToCriticalFile, h1, h2, h3]

/-- Witness for robust_logger_tiered_fallback at each of the four failure
combinations, starting from empty sinks; in particular with the primary
sink raising, the record lands in the file sink with the requested run
identity run-42. -/
theorem robust_logger_tiered_fallback_witness :
    (RobustLogger.log ⟨false, false, false⟩ 11 "INFO" "m" [] "pl" "run-42"
        ⟨[], [], [], []⟩ =
      { db := [⟨11, "INFO", "m", "pl", "run-42", []⟩], file := [],
        critical := [], err_stream := [] }) ∧
    (RobustLogger.log ⟨true, false, false⟩ 11 "INFO" "m" [] "pl" "run-42"
        ⟨[], [], [], []⟩ =
      { db := [], file := [⟨11, "INFO", "m", "pl", "run-42", []⟩],
        critical := [], err_stream := [] }) ∧
    (RobustLogger.log ⟨true, true, false⟩ 11 "INFO" "m" [] "pl" "run-42"
        ⟨[], [], [], []⟩ =
      { db := [], file := [],
        critical := [criticalLine ⟨11, "INFO", "m", "pl", "run-42", []⟩],
        err_stream := [] }) ∧
    (RobustLogger.log ⟨true, true, true⟩ 11 "INFO" "m" [] "pl" "run-42"
        ⟨[], [], [], []⟩ =
      { db := [], file := [], critical := [],
        err_stream := ["CRITICAL: " ++ "m"] }) := by
  refine ⟨?_, ?_, ?_, ?_⟩
  · exact (robust_logger_tiered_fallback ⟨false, false, false⟩ 11 "INFO" "m" []
      "pl" "run-42" ⟨[], [], [], []⟩).1 rfl
  · exact (robust_logger_tiered_fallback ⟨true, false, false⟩ 11 "INFO" "m" []
      "pl" "run-42" ⟨[], [], [], []⟩).2.1 rfl rfl
  · exact (robust_logger_tiered_fallback ⟨true, true, false⟩ 11 "INFO" "m" []
      "pl" "run-42" ⟨[], [], [], []⟩).2.2.1 rfl rfl rfl
  · exact (robust_logger_tiered_fallback ⟨true, true, true⟩ 11 "INFO" "m" []
      "pl" "run-42" ⟨[], [], [], []⟩).2.2.2 rfl rfl rfl


/-- One line of the fallback log file as recover_file_logs sees it: blank
(dropped by line.strip()), malformed (json.loads raises on it), or a
parseable record. -/
inductive FallbackLine where
  | blank
  | malformed (raw : String)
  | record (entry : LogEntry)
  deriving Repr, DecidableEq

/-- The primary sink during recovery: rows already committed, and rows
inserted on the open connection but not yet committed. -/
structure RecoveryDb where
  committed : List LogEntry
  pending : List LogEntry
  deriving Repr, DecidableEq

/-- What recover_file_logs reports: the recovered-count message on
success, or the single log-recovery-failed message printed by the outer
exception handler. -/
inductive RecoveryReport where
  | recovered (count : Nat)
  | failed
  deriving Repr, DecidableEq

/-- Whether json.loads raises on this line. -/
def FallbackLine.isMalformed : FallbackLine → Bool
  | FallbackLine.malformed _ => true
  | _ => false

/-- The entries of the parseable lines, in order. -/
def recordsOf (lines : List FallbackLine) : List LogEntry :=
  lines.filterMap fun l =>
    match l with
    | FallbackLine.record e => some e
    | _ => none

/-- Loop of LogRecovery.recover_file_logs: each parseable line is inserted
on the connection and counted; a malformed line makes json.loads raise out
of the whole loop into the one surrounding except handler, so the loop
ends there with neither a count report nor a commit; only a fully clean
file reaches conn.commit() and the count report. -/
def recoverGo (db : RecoveryDb) : List FallbackLine → Nat → RecoveryDb × RecoveryReport
  | [], n => (⟨db.committed ++ db.pending, []⟩, RecoveryReport.recovered n)
  | FallbackLine.blank :: rest, n => recoverGo db rest n
  | FallbackLine.malformed _ :: _, _ => (db, RecoveryReport.failed)
  | FallbackLine.record e :: rest, n =>
    recoverGo ⟨db.committed, db.pending ++ [e]⟩ rest (n + 1)

/-- LogRecovery.recover_file_logs on the parsed view of the fallback
file. -/
def recover_file_logs (lines : List FallbackLine) (db : RecoveryDb) :
    RecoveryDb × RecoveryReport :=
  recoverGo db lines 0

/-- Counterexample to C3 as stated: on a file holding a parseable record,
then a malformed line, then another parseable record, recovery reports the
single failure message instead of a malformed-record count, commits
nothing, and never re-submits the second parseable record. -/
theorem log_recovery_counterexample :
    (recover_file_logs
        [FallbackLine.record ⟨1, "INFO", "a", "pl", "run-42", []⟩,
         FallbackLine.malformed "not json",
         FallbackLine.record ⟨2, "INFO", "b", "pl", "run-42", []⟩]
        ⟨[], []⟩).2 = RecoveryReport.failed ∧
    (recover_file_logs
        [FallbackLine.record ⟨1, "INFO", "a", "pl", "run-42", []⟩,
         FallbackLine.malformed "not json",
         FallbackLine.record ⟨2, "INFO", "b", "pl", "run-42", []⟩]
        ⟨[], []⟩).1.committed = [] ∧
    (⟨2, "INFO", "b", "pl", "run-42", []⟩ : LogEntry) ∉
      (recover_file_logs
        [FallbackLine.record ⟨1, "INFO", "a", "pl", "run-42", []⟩,
         FallbackLine.malformed "not json",
         FallbackLine.record ⟨2, "INFO", "b", "pl", "run-42", []⟩]
        ⟨[], []⟩).1.pending := by
  refine ⟨rfl, rfl, ?_⟩
  decide

lemma recoverGo_clean (lines : List FallbackLine) :
    ∀ (db : RecoveryDb) (n : Nat),
      (∀ l ∈ lines, l.isMalformed = false) →
      recoverGo db lines n =
        (⟨db.committed ++ db.pending ++ recordsOf lines, []⟩,
          RecoveryReport.recovered (n + (recordsOf lines).length)) := by
  induction lines with
  | nil => intro db n _; simp [recoverGo, recordsOf]
  | cons l rest ih =>
    intro db n h
    have hrest : ∀ x ∈ rest, x.isMalformed = false := by
      intro x hx; exact h x (by simp [hx])
    match l with
    | FallbackLine.blank =>
      rw [show recoverGo db (FallbackLine.blank :: rest) n = recoverGo db rest n
        from rfl, ih db n hrest]
      simp [recordsOf]
    | FallbackLine.malformed raw =>
      exact absurd (h (FallbackLine.malformed raw) (by simp))
        (by simp [FallbackLine.isMalformed])
    | FallbackLine.record e =>
      rw [show recoverGo db (FallbackLine.record e :: rest) n =
        recoverGo ⟨db.committed, db.pending ++ [e]⟩ rest (n + 1) from rfl,
        ih ⟨db.committed, db.pending ++ [e]⟩ (n + 1) hrest]
      refine congrArg₂ Prod.mk ?_ ?_
      · simp [recordsOf]
      · refine congrArg RecoveryReport.recovered ?_
        simp [recordsOf]
        omega

lemma recoverGo_abort (pre : List FallbackLine) :
    ∀ (db : RecoveryDb) (n : Nat) (raw : String) (rest : List FallbackLine),
      (∀ l ∈ pre, l.isMalformed = false) →
      recoverGo db (pre ++ FallbackLine.malformed raw :: rest) n =
        (⟨db.committed, db.pending ++ recordsOf pre⟩, RecoveryReport.failed) := by
  induction pre with
  | nil => intro db n raw rest _; simp [recoverGo, recordsOf]
  | cons l pres ih =>
    intro db n raw rest h
    have hpres : ∀ x ∈ pres, x.isMalformed = false := by
      intro x hx; exact h x (by simp [hx])
    match l with
    | FallbackLine.blank =>
      rw [List.cons_append,
        show recoverGo db ((FallbackLine.blank :: (pres ++
          FallbackLine.malformed raw :: rest)) : List FallbackLine) n =
          recoverGo db (pres ++ FallbackLine.malformed raw :: rest) n from rfl,
        ih db n raw rest hpres]
      simp [recordsOf]
    | FallbackLine.malformed raw2 =>
      exact absurd (h (FallbackLine.malformed raw2) (by simp))
        (by simp [FallbackLine.isMalformed])
    | FallbackLine.record e =>
      rw [List.cons_append,
        show recoverGo db ((FallbackLine.record e :: (pres ++
          FallbackLine.malformed raw :: rest)) : List FallbackLine) n =
          recoverGo ⟨db.committed, db.pending ++ [e]⟩
            (pres ++ FallbackLine.malformed raw :: rest) (n + 1) from rfl,
        ih ⟨db.committed, db.pending ++ [e]⟩ (n + 1) raw rest hpres]
      simp [recordsOf]

/-- C3 amended: recovery re-submits every parseable record and reports the
recovered count only when every line of the file parses; the first
malformed line aborts the whole operation with a single failure report —
nothing is committed (records inserted before the malformed line remain
uncommitted) and parseable records after it are not re-submitted at
all. -/
theorem log_recovery_abort_on_malformed (lines : List FallbackLine)
    (db : RecoveryDb) :
    ((∀ l ∈ lines, l.isMalformed = false) →
      recover_file_logs lines db =
        (⟨db.committed ++ db.pending ++ recordsOf lines, []⟩,
          RecoveryReport.recovered (recordsOf lines).length)) ∧
    (∀ (pre : List FallbackLine) (raw : String) (rest : List FallbackLine),
      lines = pre ++ FallbackLine.malformed raw :: rest →
      (∀ l ∈ pre, l.isMalformed = false) →
      recover_file_logs lines db =
        (⟨db.committed, db.pending ++ recordsOf pre⟩, RecoveryReport.failed)) := by
  constructor
  · intro h
    rw [recover_file_logs, recoverGo_clean lines db 0 h]
    simp
  · intro pre raw rest hsplit hpre
    rw [recover_file_logs, hsplit, recoverGo_abort pre db 0 raw rest hpre]

/-- Witness for log_recovery_abort_on_malformed: a clean two-line file
commits its one record and reports count 1; a file with a malformed second
line ends with the failure report, the first record only pending, and the
third line never inserted. -/
theorem log_recovery_abort_on_malformed_witness :
    (recover_file_logs
        [FallbackLine.record ⟨1, "INFO", "a", "pl", "run-42", []⟩,
         FallbackLine.blank] ⟨[], []⟩ =
      (⟨[⟨1, "INFO", "a", "pl", "run-42", []⟩], []⟩,
        RecoveryReport.recovered 1)) ∧
    (recover_file_logs
        [FallbackLine.record ⟨1, "INFO", "a", "pl", "run-42", []⟩,
         FallbackLine.malformed "not json",
         FallbackLine.record ⟨2, "INFO", "b", "pl", "run-42", []⟩]
        ⟨[], []⟩ =
      (⟨[], [⟨1, "INFO", "a", "pl", "run-42", []⟩]⟩, RecoveryReport.failed)) := by
  constructor
  · have := (log_recovery_abort_on_malformed
      [FallbackLine.record ⟨1, "INFO", "a", "pl", "run-42", []⟩,
       FallbackLine.blank] ⟨[], []⟩).1 (by decide)
    simpa [recordsOf] using this
  · have := (log_recovery_abort_on_malformed
      [FallbackLine.record ⟨1, "INFO", "a", "pl", "run-42", []⟩,
       FallbackLine.malformed "not json",
       FallbackLine.record ⟨2, "INFO", "b", "pl", "run-42", []⟩]
      ⟨[], []⟩).2
      [FallbackLine.record ⟨1, "INFO", "a", "pl", "run-42", []⟩] "not json"
      [FallbackLine.record ⟨2, "INFO", "b", "pl", "run-42", []⟩] rfl (by decide)
    simpa [recordsOf] using this


/-- One attempt of a retried stage method of ReliablePipeline
(update_product_performance / update_country_sales): start_stage on
(stage, start), run the business SQL, then on success call
set_checkpoint(stage, end, completed, metadata with rows_updated) and
return the row count, and on failure call
set_checkpoint(stage, end, failed) and re-raise.  In the failure call the
string failed is passed positionally into the checkpoint_value parameter,
so the status parameter keeps its default value completed. -/
def stageAttempt (p r stageName : String) (outcome : Except String Nat)
    (t : Nat) (table : List CheckpointRow) :
    Except String Nat × List CheckpointRow :=
  let table1 := start_stage p r stageName "start" t table
  match outcome with
  | Except.ok rows =>
    (Except.ok rows,
      set_checkpoint p r stageName "end" "completed" "completed"
        (some [("rows_updated", rows)]) t table1)
  | Except.error e =>
    (Except.error e,
      set_checkpoint p r stageName "end" "failed" "completed" none t table1)

/-- The retry_with_backoff decorator wrapped around a whole stage method:
the checkpoint table threads through the attempts, and the business SQL of
attempt number i has outcome outcomes i. -/
def retryStageGo (p r stageName : String) (outcomes : Nat → Except String Nat)
    (t : Nat) : Nat → Nat → List CheckpointRow →
    Except (Option String) Nat × List CheckpointRow
  | 0, _, table => (Except.error none, table)
  | remaining + 1, attempt, table =>
    match stageAttempt p r stageName (outcomes attempt) t table with
    | (Except.ok rows, table1) => (Except.ok rows, table1)
    | (Except.error e, table1) =>
      if remaining = 0 then (Except.error (some e), table1)
      else retryStageGo p r stageName outcomes t remaining (attempt + 1) table1

/-- One stage of ReliablePipeline run through its retry decorator. -/
def run_stage (p r stageName : String) (outcomes : Nat → Except String Nat)
    (max_attempts t : Nat) (table : List CheckpointRow) :
    Except (Option String) Nat × List CheckpointRow :=
  retryStageGo p r stageName outcomes t max_attempts 0 table

/-- ReliablePipeline.run_pipeline over a list of named stages: stages run
sequentially, each through the retry decorator; the first stage failure
propagates, the run is reported failed, and later stages are never
attempted. -/
def run_pipeline (p r : String)
    (stages : List (String × (Nat → Except String Nat)))
    (max_attempts t : Nat) (table : List CheckpointRow) :
    Bool × List CheckpointRow :=
  match stages with
  | [] => (true, table)
  | (stageName, outcomes) :: rest =>
    match run_stage p r stageName outcomes max_attempts t table with
    | (Except.ok _, table1) => run_pipeline p r rest max_attempts t table1
    | (Except.error _, table1) => (false, table1)

/-- C1, evaluated at the failing input: in the 2-stage run with
max_attempts = 3 where stage 1 succeeds and stage 2 always fails, the run
is reported failed and stage 1 ends with a status completed checkpoint,
but the ledger row of the failed stage 2 also carries status completed —
only its checkpoint_value reads failed — because the failure-path call
set_checkpoint(stage, end, failed) leaves the status parameter at its
default completed instead of recording the failure in the status
column. -/
theorem reliable_pipeline_failed_stage_checkpoint :
    (run_pipeline "reliable_gold_pipeline" "run-1"
        [("product_performance", fun _ => Except.ok 5),
         ("country_sales", fun _ => Except.error "db down")] 3 0 []).1 =
      false ∧
    (findMatching "reliable_gold_pipeline" "run-1" "product_performance" "end"
        (run_pipeline "reliable_gold_pipeline" "run-1"
          [("product_performance", fun _ => Except.ok 5),
           ("country_sales", fun _ => Except.error "db down")] 3 0 []).2).map
        CheckpointRow.status = some "completed" ∧
    (findMatching "reliable_gold_pipeline" "run-1" "country_sales" "end"
        (run_pipeline "reliable_gold_pipeline" "run-1"
          [("product_performance", fun _ => Except.ok 5),
           ("country_sales", fun _ => Except.error "db down")] 3 0 []).2).map
        CheckpointRow.status = some "completed" ∧
    get_checkpoint "reliable_gold_pipeline" "run-1" "country_sales" "end"
        (run_pipeline "reliable_gold_pipeline" "run-1"
          [("product_performance", fun _ => Except.ok 5),
           ("country_sales", fun _ => Except.error "db down")] 3 0 []).2 =
      some "failed" := by
  refine ⟨rfl, rfl, rfl, rfl⟩


/-- One row of ops.processed_months. -/
structure MonthRow where
  month_key : String
  year : Nat
  month : Nat
  status : String
  processed_at : Nat
  deriving Repr, DecidableEq

/-- The month key f-string of idempotent_pipeline.py: year-month with the
month zero-padded to two digits. -/
def monthKey (year month : Nat) : String :=
  toString year ++ "-" ++
    (if month < 10 then "0" ++ toString month else toString month)

/-- Insertion step of sorting by month_key. -/
def insertKey (s : String) : List String → List String
  | [] => [s]
  | x :: xs => if s < x then s :: x :: xs else x :: insertKey s xs

/-- ORDER BY month_key, modelled as insertion sort. -/
def sortKeys (l : List String) : List String :=
  l.foldr insertKey []

/-- CheckpointManager.get_processed_months of idempotent_pipeline.py:
SELECT month_key FROM ops.processed_months ORDER BY month_key — the key of
every row, with no filter on status. -/
def get_processed_months (table : List MonthRow) : List String :=
  sortKeys (table.map MonthRow.month_key)

/-- CheckpointManager.set_month_processed: INSERT ... ON CONFLICT
(month_key) DO UPDATE SET status, processed_at. -/
def set_month_processed (year month : Nat) (status : String) (t : Nat) :
    List MonthRow → List MonthRow
  | [] => [⟨monthKey year month, year, month, status, t⟩]
  | row :: rest =>
    if row.month_key == monthKey year month then
      { row with status := status, processed_at := t } :: rest
    else row :: set_month_processed year month status t rest

/-- A default sweep of idempotent_pipeline.main, observed as: the units it
attempted in order, the processed_months table at exit, and whether the
run completed without a stage failure. -/
structure SweepResult where
  attempted : List (Nat × Nat)
  table : List MonthRow
  success : Bool
  deriving Repr, DecidableEq

/-- Loop of main over the unprocessed months: each unit is first marked
in_progress, then its aggregate is computed (outcome out y m), then on
success the unit is marked completed; a failing aggregate propagates out
of the loop and ends the run right there. -/
def sweepGo (out : Nat → Nat → Except String Nat) (t : Nat) :
    List (Nat × Nat) → List MonthRow → SweepResult
  | [], table => ⟨[], table, true⟩
  | (y, m) :: rest, table =>
    let table1 := set_month_processed y m "in_progress" t table
    match out y m with
    | Except.error _ => ⟨[(y, m)], table1, false⟩
    | Except.ok _ =>
      let table2 := set_month_processed y m "completed" t table1
      let res := sweepGo out t rest table2
      ⟨(y, m) :: res.attempted, res.table, res.success⟩

/-- The default sweep of idempotent_pipeline.main (no year/month filter,
no reset, no dry run): the work list is every month of the silver layer
whose key is absent from get_processed_months, computed once before the
loop. -/
def runSweep (allMonths : List (Nat × Nat))
    (out : Nat → Nat → Except String Nat) (t : Nat)
    (table : List MonthRow) : SweepResult :=
  sweepGo out t
    (allMonths.filter fun ym =>
      !((get_processed_months table).contains (monthKey ym.1 ym.2)))
    table

lemma mem_insertKey (a s : String) (l : List String) :
    a ∈ insertKey s l ↔ a = s ∨ a ∈ l := by
  induction l with
  | nil => simp [insertKey]
  | cons x xs ih =>
    by_cases h : s < x
    · simp [insertKey, h]
    · simp [insertKey, h, ih]
      tauto

lemma mem_sortKeys (a : String) (l : List String) :
    a ∈ sortKeys l ↔ a ∈ l := by
  induction l with
  | nil => simp [sortKeys]
  | cons x xs ih =>
    rw [show sortKeys (x :: xs) = insertKey x (sortKeys xs) from rfl,
      mem_insertKey]
    simp [ih]

lemma mem_get_processed_months (k : String) (table : List MonthRow) :
    k ∈ get_processed_months table ↔ k ∈ table.map MonthRow.month_key := by
  rw [get_processed_months, mem_sortKeys]

lemma sweepGo_attempted_subset (out : Nat → Nat → Except String Nat) (t : Nat) :
    ∀ (units : List (Nat × Nat)) (table : List MonthRow) (x : Nat × Nat),
      x ∈ (sweepGo out t units table).attempted → x ∈ units := by
  intro units
  induction units with
  | nil => intro table x hx; simp [sweepGo] at hx
  | cons ym rest ih =>
    intro table x hx
    obtain ⟨y, m⟩ := ym
    rw [sweepGo] at hx
    match hout : out y m with
    | Except.error e =>
      rw [hout] at hx
      simp at hx
      simp [hx]
    | Except.ok v =>
      rw [hout] at hx
      simp at hx
      rcases hx with hx | hx
      · simp [hx]
      · exact List.mem_cons_of_mem _ (ih _ x hx)

lemma set_month_processed_mem (y m : Nat) (status : String) (t : Nat)
    (table : List MonthRow) :
    ∃ row ∈ set_month_processed y m status t table,
      row.month_key = monthKey y m ∧ row.status = status := by
  induction table with
  | nil =>
    exact ⟨⟨monthKey y m, y, m, status, t⟩, by simp [set_month_processed]⟩
  | cons row rest ih =>
    by_cases h : row.month_key == monthKey y m
    · refine ⟨{ row with status := status, processed_at := t }, ?_, ?_, rfl⟩
      · simp [set_month_processed, h]
      · exact eq_of_beq h
    · obtain ⟨r2, hmem, hk, hs⟩ := ih
      refine ⟨r2, ?_, hk, hs⟩
      simp [set_month_processed, h]
      exact Or.inr hmem

lemma sweepGo_failed_in_progress (out : Nat → Nat → Except String Nat)
    (t : Nat) (y m : Nat) (e : String) :
    ∀ (units : List (Nat × Nat)) (table : List MonthRow),
      (y, m) ∈ (sweepGo out t units table).attempted →
      out y m = Except.error e →
      ∃ row ∈ (sweepGo out t units table).table,
        row.month_key = monthKey y m ∧ row.status = "in_progress" := by
  intro units
  induction units with
  | nil => intro table hx _; simp [sweepGo] at hx
  | cons ym rest ih =>
    intro table hx herr
    obtain ⟨y0, m0⟩ := ym
    rw [sweepGo] at hx ⊢
    match hout : out y0 m0 with
    | Except.error e0 =>
      rw [hout] at hx
      simp at hx
      obtain ⟨rfl, rfl⟩ := hx
      exact set_month_processed_mem y m "in_progress" t table
    | Except.ok v =>
      rw [hout] at hx
      simp at hx
      rcases hx with ⟨rfl, rfl⟩ | hx
      · rw [herr] at hout
        exact Except.noConfusion hout
      · exact ih _ hx herr

lemma runSweep_skips_present (allMonths : List (Nat × Nat))
    (out : Nat → Nat → Except String Nat) (t : Nat) (table : List MonthRow)
    (y m : Nat) (h : monthKey y m ∈ table.map MonthRow.month_key) :
    (y, m) ∉ (runSweep allMonths out t table).attempted := by
  intro hmem
  have hin := sweepGo_attempted_subset out t _ table (y, m) hmem
  rw [List.mem_filter] at hin
  have hproc : monthKey y m ∈ get_processed_months table :=
    (mem_get_processed_months _ table).mpr h
  have hc : (get_processed_months table).contains (monthKey y m) = false := by
    simpa using hin.2
  exact absurd hproc (by simpa using hc)

/-- C10: get_processed_months returns the key of every row regardless of
its status; a default sweep never attempts a unit whose key is already
present in the table; a unit whose aggregate fails is left as an
in_progress row (it was marked before the aggregate ran); and therefore a
later default sweep on the resulting table never attempts that unit
again. -/
theorem idempotent_sweep_skips_by_presence (table : List MonthRow)
    (allMonths : List (Nat × Nat)) (out out2 : Nat → Nat → Except String Nat)
    (t t2 : Nat) (k : String) (y m : Nat) (e : String) :
    (k ∈ get_processed_months table ↔ k ∈ table.map MonthRow.month_key) ∧
    (monthKey y m ∈ table.map MonthRow.month_key →
      (y, m) ∉ (runSweep allMonths out t table).attempted) ∧
    ((y, m) ∈ (runSweep allMonths out t table).attempted →
      out y m = Except.error e →
      ∃ row ∈ (runSweep allMonths out t table).table,
        row.month_key = monthKey y m ∧ row.status = "in_progress") ∧
    ((y, m) ∈ (runSweep allMonths out t table).attempted →
      out y m = Except.error e →
      (y, m) ∉ (runSweep allMonths out2 t2
        (runSweep allMonths out t table).table).attempted) := by
  refine ⟨mem_get_processed_months k table,
    runSweep_skips_present allMonths out t table y m, ?_, ?_⟩
  · intro hmem herr
    exact sweepGo_failed_in_progress out t y m e _ table hmem herr
  · intro hmem herr
    obtain ⟨row, hrow, hk, _⟩ :=
      sweepGo_failed_in_progress out t y m e _ table hmem herr
    exact runSweep_skips_present allMonths out2 t2 _ y m
      (hk ▸ List.mem_map_of_mem MonthRow.month_key hrow)


/-- Witness for idempotent_sweep_skips_by_presence: with month 2010-12
already present as an in_progress row (a crashed run), the default sweep
skips (2010, 12) even though it never completed; the sweep attempts
(2011, 1), whose aggregate fails, leaving it in_progress, and a second
default sweep does not attempt (2011, 1) again. -/
theorem idempotent_sweep_skips_by_presence_witness :
    ("2010-12" ∈ get_processed_months [⟨"2010-12", 2010, 12, "in_progress", 0⟩] ↔
      "2010-12" ∈
        ([⟨"2010-12", 2010, 12, "in_progress", 0⟩] : List MonthRow).map
          MonthRow.month_key) ∧
    (2010, 12) ∉ (runSweep [(2010, 12), (2011, 1)]
      (fun y _ => if y = 2011 then Except.error "crash" else Except.ok 3) 1
      [⟨"2010-12", 2010, 12, "in_progress", 0⟩]).attempted ∧
    (∃ row ∈ (runSweep [(2010, 12), (2011, 1)]
        (fun y _ => if y = 2011 then Except.error "crash" else Except.ok 3) 1
        [⟨"2010-12", 2010, 12, "in_progress", 0⟩]).table,
      row.month_key = monthKey 2011 1 ∧ row.status = "in_progress") ∧
    (2011, 1) ∉ (runSweep [(2010, 12), (2011, 1)] (fun _ _ => Except.ok 1) 2
      (runSweep [(2010, 12), (2011, 1)]
        (fun y _ => if y = 2011 then Except.error "crash" else Except.ok 3) 1
        [⟨"2010-12", 2010, 12, "in_progress", 0⟩]).table).attempted := by
  have h1 := idempotent_sweep_skips_by_presence
    [⟨"2010-12", 2010, 12, "in_progress", 0⟩] [(2010, 12), (2011, 1)]
    (fun y _ => if y = 2011 then Except.error "crash" else Except.ok 3)
    (fun _ _ => Except.ok 1) 1 2 "2010-12" 2010 12 "crash"
  have h2 := idempotent_sweep_skips_by_presence
    [⟨"2010-12", 2010, 12, "in_progress", 0⟩] [(2010, 12), (2011, 1)]
    (fun y _ => if y = 2011 then Except.error "crash" else Except.ok 3)
    (fun _ _ => Except.ok 1) 1 2 "2010-12" 2011 1 "crash"
  refine ⟨h1.1, h1.2.1 (by decide), h2.2.2.1 (by decide) rfl,
    h2.2.2.2 (by decide) rfl⟩

end Spec2Proof
